import Mathlib

/-
Verification of the goa code-generation pipeline: the output writer and
normalization pass (package codegen), the synthesized driver program
(cmd/goagen/file.go) and the build-and-execute orchestrator
(cmd/goagen/main.go), shallowly embedded in Lean.
-/

namespace Goa

/-! ## Byte-wise string order

`sort.Strings` sorts with the Go `<` on strings, which compares the
underlying bytes lexicographically; on the paths this program produces
that coincides with comparing the character scalar values in order. -/

/-- Lexicographic order on character lists by scalar value: true exactly
when the first list is less than or equal to the second. -/
def strLeList : List Char → List Char → Bool
  | [], _ => true
  | _ :: _, [] => false
  | a :: as, b :: bs =>
    if a.toNat < b.toNat then true
    else if b.toNat < a.toNat then false
    else strLeList as bs

/-- Go `a <= b` on strings. -/
def strLe (a b : String) : Bool := strLeList a.data b.data

/-- The order relation used to model `sort.Strings`. -/
def strLeRel (a b : String) : Prop := strLe a b = true

instance strLeRelDecidable : DecidableRel strLeRel := fun a b => by
  unfold strLeRel; infer_instance

/-- Model of `sort.Strings`: since the order is total, transitive and
antisymmetric, any correct sort yields the unique sorted permutation,
so insertion sort is a faithful model of the sort used in the driver. -/
def sortStrings (l : List String) : List String := List.insertionSort strLeRel l

/-! ## Data model of the codegen package (src/unnamed/part_000) -/

/-- An import declaration of a generated Go file: optional local alias
(empty when absent, the Go zero value) and package path.
Embeds `ImportSpec`. -/
structure ImportSpec where
  name : String
  path : String
deriving DecidableEq, Repr

/-- `ImportSpec.Code`: the rendered Go import statement. -/
def ImportSpec.Code (s : ImportSpec) : String :=
  if s.name.length > 0 then s.name ++ " \"" ++ s.path ++ "\""
  else "\"" ++ s.path ++ "\""

/-- Abstraction of a parsed Go source file as the normalization pass sees
it: the declared import list in order, and the list of import paths the
body actually references. `uses` abstracts what `astutil.UsesImport`
answers for each path. -/
structure GoSrc where
  imports : List ImportSpec
  uses : List String
deriving DecidableEq, Repr

/-- `astutil.UsesImport(file, path)`: does the body reference the package
imported under `path`. -/
def usesImport (f : GoSrc) (path : String) : Bool := f.uses.contains path

/-- The deletion loop of `formatCode`: every import whose path the body
never uses is removed from the tree (the aliased form via
`DeleteNamedImport`, the unaliased one via `DeleteImport`; both are plain
removal at this level of abstraction). -/
def deleteUnusedImports (f : GoSrc) : GoSrc :=
  { f with imports := f.imports.filter (fun i => usesImport f i.path) }

/-- `imports.Process` with `FormatOnly: true`: pure reformatting of the
bytes it is given; it neither adds nor removes import declarations nor
changes which packages the body references, so on this abstraction it is
the identity. -/
def importsProcessFormatOnly (content : GoSrc) : GoSrc := content

/-- Embeds `formatCode` (src/unnamed/part_000, lines 124-166) keeping its
exact data flow: the file on disk is parsed into `file`, the original
bytes are kept in `content`, the unused-import deletions are applied to
the parsed tree `file`, but the bytes written back come from
`imports.Process(path, content, FormatOnly)` applied to the original
`content`; the cleaned tree is never serialized. -/
def formatCode (content : GoSrc) : GoSrc :=
  let file := content
  let _cleaned := deleteUnusedImports file
  importsProcessFormatOnly content

/-- Rendering a section either fails (template execution error) or
produces text. Embeds `Section` (a template paired with its data) at the
level of its observable behaviour `Section.Write`. -/
structure Section where
  render : Except String String

/-- Embeds the `File` interface: `Sections genPkg` and
`OutputPath reserved`. The reserved set is the collection of registered
paths, modelled as a list with membership as the set semantics of the
Go map. -/
structure File where
  Sections : String → List Section
  OutputPath : List String → String

/-- Embeds `Writer`: output directory and the registry of paths written
so far in this session. -/
structure Writer where
  Dir : String
  Files : List String

/-- Embeds `NewWriter`. -/
def NewWriter (dir : String) : Writer := { Dir := dir, Files := [] }

/-- Models `filepath.Join` for the cleaned, slash-separated, dot-free
relative paths this program produces: empty components are dropped, a
directory of "." cleans away, and the rest are joined with a slash. -/
def filepathJoin (dir p : String) : String :=
  if dir = "" then p
  else if p = "" then dir
  else if dir = "." then p
  else dir ++ "/" ++ p

/-- `filepath.Ext(path) == ".go"`. -/
def hasGoExt (path : String) : Bool := List.isSuffixOf ".go".data path.data

/-- Outcomes of the fallible operating-system and toolchain calls a
single `Writer.Write` can observe: `os.MkdirAll`, `os.OpenFile`,
`build.ImportDir` (keyed by the directory probed) and the formatting
steps of `formatCode`. -/
structure FS where
  mkdirAll : Except String Unit
  openFile : Except String Unit
  importDir : String → Except String String
  format : Except String Unit

/-- Observable operations a `Writer.Write` call performs, in order. -/
inductive WEffect where
  | mkdirAll
  | openFile
  | importDir
  | format
  | register
deriving DecidableEq, Repr

/-- Renders the sections of a file in order into one concatenated text,
failing on the first section whose template execution fails. -/
def renderSections : List Section → Except String String
  | [] => .ok ""
  | s :: rest =>
    match s.render with
    | .error e => .error e
    | .ok text =>
      match renderSections rest with
      | .error e => .error e
      | .ok t2 => .ok (text ++ t2)

/-- Embeds `Writer.Write` (src/unnamed/part_000, lines 69-107), in source
order: compute the joined path from `OutputPath` applied to the current
registry, create the parent directories, open the file, resolve the gen
package import path with `build.ImportDir(w.Dir)`, render the sections,
run `formatCode` when the path has the `.go` extension, and only then
register the path. Returns the Go return value, the updated writer, and
the trace of operations performed. -/
def Writer.Write (env : FS) (w : Writer) (file : File) :
    Except String String × Writer × List WEffect :=
  let path := filepathJoin w.Dir (file.OutputPath w.Files)
  match env.mkdirAll with
  | .error e => (.error e, w, [.mkdirAll])
  | .ok _ =>
  match env.openFile with
  | .error e => (.error e, w, [.mkdirAll, .openFile])
  | .ok _ =>
  match env.importDir w.Dir with
  | .error e => (.error e, w, [.mkdirAll, .openFile, .importDir])
  | .ok genPkg =>
  match renderSections (file.Sections genPkg) with
  | .error e => (.error e, w, [.mkdirAll, .openFile, .importDir])
  | .ok _text =>
  if hasGoExt path then
    match env.format with
    | .error e => (.error e, w, [.mkdirAll, .openFile, .importDir, .format])
    | .ok _ =>
      (.ok path, { w with Files := path :: w.Files },
        [.mkdirAll, .openFile, .importDir, .format, .register])
  else
    (.ok path, { w with Files := path :: w.Files },
      [.mkdirAll, .openFile, .importDir, .register])

/-! ## Generator synthesis (src/cmd/goagen/file.go) -/

/-- The switch of `Main` (src/cmd/goagen/file.go, lines 26-35): the
closed mapping from command name to generator identifier; any other name
hits the panic branch, modelled as `none`. -/
def commandGen : String → Option String
  | "server" => some "Server"
  | "client" => some "Client"
  | "openapi" => some "OpenAPI"
  | _ => none

/-- The loop of `Main`: map each command in order through `commandGen`,
aborting at the first unknown command (the Go panic). -/
def mainGens : List String → Option (List String)
  | [] => some []
  | c :: rest =>
    match commandGen c with
    | none => none
    | some g => (mainGens rest).map (fun gs => g :: gs)

/-- `mainFile.OutputPath` (src/cmd/goagen/file.go, lines 70-72): the
constant "main.go"; the reserved set is ignored. -/
def mainFileOutputPath (_reserved : List String) : String := "main.go"

/-- `mainFile.Sections` (src/cmd/goagen/file.go, lines 41-66): a header
section followed by the body rendered from `mainTmpl` over the generator
names. The concrete text is abstracted to a string that records the
inputs; only the success of rendering and the output path matter to the
writer. -/
def mainFileSections (gens : List String) (designPath genPkg : String) :
    List Section :=
  [ { render := .ok ("// Generator main, package main, imports " ++
        designPath ++ " " ++ genPkg) },
    { render := .ok ("func main -- invoking " ++
        String.intercalate " " gens) } ]

/-- Embeds `Main` (src/cmd/goagen/file.go, lines 23-38): build the driver
File for the given commands, `none` being the panic on an unknown
command. -/
def Main (commands : List String) (designPath : String) : Option File :=
  (mainGens commands).map (fun gens =>
    { Sections := mainFileSections gens designPath
      OutputPath := mainFileOutputPath })

/-! ## The synthesized driver program (template mainT of file.go) -/

/-- Observable side effects of a driver run: running the DSL evaluation,
invoking a named generator, and writing one output file. -/
inductive DEffect where
  | runDSL
  | invokeGenerator (name : String)
  | writeFile (path : String)
deriving DecidableEq, Repr

/-- Environment of one driver execution: the version compiled into it
(`pkg.Version()`), the outcome of reading `eval.Context.Errors`, of
`eval.RunDSL()`, of `eval.Context.Roots()`, the behaviour of each
concrete generator on the roots, and the filesystem the fresh writer
session sees. -/
structure DriverEnv where
  embeddedVersion : String
  ctxErrors : Option String
  runDSL : Except String Unit
  roots : Except String (List String)
  generate : String → List String → Except String (List File)
  fs : FS

/-- The generator loop of the driver body: invoke each generator in
order against the roots, abort on the first error, append the produced
files. -/
def runGenerators (env : DriverEnv) (roots : List String) :
    List String → Except String (List File) × List DEffect
  | [] => (.ok [], [])
  | g :: rest =>
    match env.generate g roots with
    | .error e => (.error e, [.invokeGenerator g])
    | .ok fs =>
      match runGenerators env roots rest with
      | (.error e, tr) => (.error e, .invokeGenerator g :: tr)
      | (.ok more, tr) => (.ok (fs ++ more), .invokeGenerator g :: tr)

/-- The write loop of the driver body: write each file through the one
writer session, abort on the first error, collect the returned paths in
write order. -/
def writeFiles (env : FS) (w : Writer) :
    List File → Except String (List String) × Writer × List DEffect
  | [] => (.ok [], w, [])
  | f :: rest =>
    match Writer.Write env w f with
    | (.error e, w1, _) => (.error e, w1, [])
    | (.ok p, w1, _) =>
      match writeFiles env w1 rest with
      | (.error e, w2, tr) => (.error e, w2, .writeFile p :: tr)
      | (.ok ps, w2, tr) => (.ok (p :: ps), w2, .writeFile p :: tr)

/-- Embeds the program rendered from the `mainT` template
(src/cmd/goagen/file.go, lines 75-144), in source order: check the
output flag, the version flag, the version gate against the embedded
version, then `eval.Context.Errors`, `eval.RunDSL`, the roots, the
selected generators in order, then a fresh writer session rooted at the
output directory writes every file, and the collected paths are sorted
and joined with newlines. An error result is the `fail` helper: message
to standard error and exit code 1. -/
def mainT (gens : List String) (out version : String) (env : DriverEnv) :
    Except String String × List DEffect :=
  if out = "" then (.error "missing output flag", [])
  else if version = "" then (.error "missing version flag", [])
  else if version ≠ env.embeddedVersion then
    (.error ("goa DSL was run with goa version " ++ version ++
      " but compiled generator is running " ++ env.embeddedVersion), [])
  else
    match env.ctxErrors with
    | some e => (.error e, [])
    | none =>
    match env.runDSL with
    | .error e => (.error e, [.runDSL])
    | .ok _ =>
    match env.roots with
    | .error e => (.error e, [.runDSL])
    | .ok roots =>
    match runGenerators env roots gens with
    | (.error e, tr) => (.error e, .runDSL :: tr)
    | (.ok files, tr) =>
    match writeFiles env.fs (NewWriter out) files with
    | (.error e, _, wtr) => (.error e, .runDSL :: (tr ++ wtr))
    | (.ok outputs, _, wtr) =>
      (.ok (String.intercalate "\n" (sortStrings outputs)),
        .runDSL :: (tr ++ wtr))

/-- The file paths written by a driver run, in write order, read off its
effect trace. -/
def writtenPaths (tr : List DEffect) : List String :=
  tr.filterMap (fun e =>
    match e with
    | .writeFile p => some p
    | _ => none)

/-! ## Build-and-execute orchestrator (src/cmd/goagen/main.go) -/

/-- Stages of one `generate` run, as observable steps; `removeWorkspace`
records the deferred `os.RemoveAll(tmpDir)` firing. -/
inductive GenStep where
  | resolveDescription
  | createWorkspace
  | writeDriver
  | compile
  | execute
  | removeWorkspace
deriving DecidableEq, Repr

/-- Environment of one orchestrator run: outcome of
`build.Import(path, ".", IgnoreVendor)`, of `exec.LookPath("go")`, of
`ioutil.TempDir` (the staging directory name), the filesystem the writer
session sees, the combined output of the compile step and of the driver
execution. -/
structure GenEnv where
  importPkg : Except String Unit
  lookGo : Except String String
  tempDir : Except String String
  fs : FS
  compileOut : Except String String
  runOut : Except String String

/-- Embeds `generate` (src/cmd/goagen/main.go, lines 101-153), in source
order: import check on the design path, locate the go compiler, create
the staging directory, defer its removal unless debug was requested
(modelled by appending `removeWorkspace` to the trace of every later
return), write the driver file through a fresh writer session, compile
it, run it, and return its combined output. The panic of `Main` on an
unknown command is surfaced as an error at the same program point. -/
def generate (env : GenEnv) (cmds : List String) (path _output : String)
    (debug : Bool) : Except String String × List GenStep :=
  match env.importPkg with
  | .error e => (.error e, [.resolveDescription])
  | .ok _ =>
  match env.lookGo with
  | .error _ =>
    (.error "failed to find a go compiler", [.resolveDescription])
  | .ok _gobin =>
  match env.tempDir with
  | .error e => (.error e, [.resolveDescription])
  | .ok tmpDir =>
    let cleanup : List GenStep := if debug then [] else [.removeWorkspace]
    match Main cmds path with
    | none =>
      (.error "panic: unknown command",
        [.resolveDescription, .createWorkspace] ++ cleanup)
    | some driver =>
    match Writer.Write env.fs (NewWriter tmpDir) driver with
    | (.error e, _, _) =>
      (.error e,
        [.resolveDescription, .createWorkspace, .writeDriver] ++ cleanup)
    | (.ok _p, _, _) =>
    match env.compileOut with
    | .error e =>
      (.error ("failed to compile generator: " ++ e),
        [.resolveDescription, .createWorkspace, .writeDriver, .compile]
          ++ cleanup)
    | .ok _ =>
    match env.runOut with
    | .error e =>
      (.error e,
        [.resolveDescription, .createWorkspace, .writeDriver, .compile,
          .execute] ++ cleanup)
    | .ok cout =>
      (.ok cout,
        [.resolveDescription, .createWorkspace, .writeDriver, .compile,
          .execute] ++ cleanup)

/-! ## Concrete instances used to exercise the model -/

/-- A run result is a failure (for the driver: `fail` printed the message
and the process exited non-zero). -/
def isFailure {α : Type} (r : Except String α) : Bool :=
  match r with
  | .error _ => true
  | .ok _ => false

/-- A filesystem in which every operation succeeds. -/
def fsOk : FS :=
  { mkdirAll := .ok ()
    openFile := .ok ()
    importDir := fun _ => .ok "goa.design/cellar/gen"
    format := .ok () }

/-- A filesystem in which opening the output file fails. -/
def fsOpenFails : FS :=
  { mkdirAll := .ok ()
    openFile := .error "open main.go: permission denied"
    importDir := fun _ => .ok "goa.design/cellar/gen"
    format := .ok () }

/-- The driver File exactly as `Main ["server"] designPath` builds it:
the header and body sections of mainFile and its constant output path. -/
def driverFile : File :=
  { Sections := mainFileSections ["Server"] "goa.design/cellar/design"
    OutputPath := mainFileOutputPath }

/-- A rendered Go file that declares one unaliased import, "fmt", which
the body never references. -/
def unusedImportFile : GoSrc :=
  { imports := [{ name := "", path := "fmt" }], uses := [] }

/-- A generated file with a fixed relative output path. -/
def genFileAt (p : String) : File :=
  { Sections := fun _ => [{ render := .ok ("package gen -- " ++ p) }]
    OutputPath := fun _ => p }

/-- A healthy driver environment: embedded version 2.0.0, clean DSL, one
root, and a Server generator that produces two files in
non-alphabetical order. -/
def driverEnvOk : DriverEnv :=
  { embeddedVersion := "2.0.0"
    ctxErrors := none
    runDSL := .ok ()
    roots := .ok ["cellar"]
    generate := fun g _roots =>
      if g = "Server" then .ok [genFileAt "b.go", genFileAt "a.go"]
      else .ok []
    fs := fsOk }

/-- An orchestrator environment in which the staging directory is
created and then the driver write fails (the open fails). -/
def genEnvWriteFails : GenEnv :=
  { importPkg := .ok ()
    lookGo := .ok "/usr/local/bin/go"
    tempDir := .ok "goagen123456"
    fs := fsOpenFails
    compileOut := .ok ""
    runOut := .ok "" }

/-- An orchestrator environment in which the design package does not
resolve. -/
def genEnvImportFails : GenEnv :=
  { importPkg := .error "cannot find package goa.design/cellar/design"
    lookGo := .ok "/usr/local/bin/go"
    tempDir := .ok "goagen123456"
    fs := fsOk
    compileOut := .ok ""
    runOut := .ok "" }

/-! ## Order properties of the byte-wise string order -/

theorem strLeList_refl : ∀ l : List Char, strLeList l l = true
  | [] => rfl
  | a :: as => by
    simp only [strLeList, Nat.lt_irrefl, if_false]
    exact strLeList_refl as

theorem strLeList_total : ∀ l1 l2 : List Char,
    strLeList l1 l2 = true ∨ strLeList l2 l1 = true
  | [], _ => Or.inl rfl
  | _ :: _, [] => Or.inr rfl
  | a :: as, b :: bs => by
    simp only [strLeList]
    by_cases hab : a.toNat < b.toNat
    · simp [hab]
    · by_cases hba : b.toNat < a.toNat
      · simp [hab, hba]
      · simp only [hab, hba, if_false]
        exact strLeList_total as bs

theorem strLeList_antisymm : ∀ l1 l2 : List Char,
    strLeList l1 l2 = true → strLeList l2 l1 = true → l1 = l2
  | [], [], _, _ => rfl
  | [], _ :: _, _, h2 => by simp [strLeList] at h2
  | _ :: _, [], h1, _ => by simp [strLeList] at h1
  | a :: as, b :: bs, h1, h2 => by
    simp only [strLeList] at h1 h2
    by_cases hab : a.toNat < b.toNat
    · have hba : ¬ b.toNat < a.toNat := by omega
      simp only [hba, hab, if_true, if_false] at h2
      exact absurd h2 (by simp)
    · by_cases hba : b.toNat < a.toNat
      · simp only [hab, hba, if_true, if_false] at h1
        exact absurd h1 (by simp)
      · simp only [hab, hba, if_false] at h1 h2
        have hn : a.toNat = b.toNat := by omega
        have hc : a = b := Char.ext (UInt32.ext hn)
        rw [hc, strLeList_antisymm as bs h1 h2]

theorem strLeList_trans : ∀ l1 l2 l3 : List Char,
    strLeList l1 l2 = true → strLeList l2 l3 = true → strLeList l1 l3 = true
  | [], _, _, _, _ => rfl
  | _ :: _, [], _, h1, _ => by simp [strLeList] at h1
  | _ :: _, _ :: _, [], _, h2 => by simp [strLeList] at h2
  | a :: as, b :: bs, c :: cs, h1, h2 => by
    simp only [strLeList] at h1 h2 ⊢
    by_cases hab : a.toNat < b.toNat
    · by_cases hbc : b.toNat < c.toNat
      · have hac : a.toNat < c.toNat := by omega
        simp [hac]
      · by_cases hcb : c.toNat < b.toNat
        · simp only [hbc, hcb, if_true, if_false] at h2
          exact absurd h2 (by simp)
        · have hac : a.toNat < c.toNat := by omega
          simp [hac]
    · by_cases hba : b.toNat < a.toNat
      · simp only [hab, hba, if_true, if_false] at h1
        exact absurd h1 (by simp)
      · simp only [hab, hba, if_false] at h1
        by_cases hbc : b.toNat < c.toNat
        · have hac : a.toNat < c.toNat := by omega
          simp [hac]
        · by_cases hcb : c.toNat < b.toNat
          · simp only [hbc, hcb, if_true, if_false] at h2
            exact absurd h2 (by simp)
          · simp only [hbc, hcb, if_false] at h2
            have hac : ¬ a.toNat < c.toNat := by omega
            have hca : ¬ c.toNat < a.toNat := by omega
            simp only [hac, hca, if_false]
            exact strLeList_trans as bs cs h1 h2

theorem string_ext {a b : String} (h : a.data = b.data) : a = b := by
  cases a; cases b; exact congrArg String.mk h

theorem strLeRel_total (a b : String) : strLeRel a b ∨ strLeRel b a :=
  strLeList_total a.data b.data

theorem strLeRel_trans {a b c : String} (h1 : strLeRel a b)
    (h2 : strLeRel b c) : strLeRel a c :=
  strLeList_trans a.data b.data c.data h1 h2

theorem strLeRel_antisymm {a b : String} (h1 : strLeRel a b)
    (h2 : strLeRel b a) : a = b :=
  string_ext (strLeList_antisymm a.data b.data h1 h2)

instance : IsTotal String strLeRel := ⟨strLeRel_total⟩

instance : IsTrans String strLeRel := ⟨fun _ _ _ => strLeRel_trans⟩

instance : IsAntisymm String strLeRel := ⟨fun _ _ => strLeRel_antisymm⟩

theorem sortStrings_sorted (l : List String) :
    List.Sorted strLeRel (sortStrings l) :=
  List.sorted_insertionSort strLeRel l

theorem sortStrings_perm (l : List String) : (sortStrings l).Perm l :=
  List.perm_insertionSort strLeRel l

/-- Two lists with the same elements sort identically: the sorted
permutation of a multiset of strings is unique. -/
theorem sortStrings_congr {l1 l2 : List String} (h : l1.Perm l2) :
    sortStrings l1 = sortStrings l2 :=
  List.eq_of_perm_of_sorted
    (((sortStrings_perm l1).trans h).trans (sortStrings_perm l2).symm)
    (sortStrings_sorted l1) (sortStrings_sorted l2)

/-! ## Behaviour of Writer.Write -/

/-- Case split on one Write call: either it fails and returns the writer
untouched, or it succeeds, returns the Dir-joined path and registers
exactly that path. -/
theorem Write_spec (env : FS) (w : Writer) (f : File) :
    (isFailure (Writer.Write env w f).1 = true ∧
      (Writer.Write env w f).2.1 = w) ∨
    ((Writer.Write env w f).1 =
        .ok (filepathJoin w.Dir (f.OutputPath w.Files)) ∧
      (Writer.Write env w f).2.1.Dir = w.Dir ∧
      (Writer.Write env w f).2.1.Files =
        filepathJoin w.Dir (f.OutputPath w.Files) :: w.Files) := by
  cases hw0 : env.mkdirAll with
  | error e => left; simp [Writer.Write, hw0, isFailure]
  | ok u0 =>
    cases hw1 : env.openFile with
    | error e => left; simp [Writer.Write, hw0, hw1, isFailure]
    | ok u1 =>
      cases hw2 : env.importDir w.Dir with
      | error e => left; simp [Writer.Write, hw0, hw1, hw2, isFailure]
      | ok genPkg =>
        cases hw3 : renderSections (f.Sections genPkg) with
        | error e => left; simp [Writer.Write, hw0, hw1, hw2, hw3, isFailure]
        | ok text =>
          by_cases hg : hasGoExt (filepathJoin w.Dir (f.OutputPath w.Files)) = true
          · cases hw4 : env.format with
            | error e =>
              left; simp [Writer.Write, hw0, hw1, hw2, hw3, hw4, hg, isFailure]
            | ok u2 =>
              right; simp [Writer.Write, hw0, hw1, hw2, hw3, hw4, hg, isFailure]
          · right; simp [Writer.Write, hw0, hw1, hw2, hw3, hg, isFailure]

/-- On a failed Write the writer, and with it the registry, is exactly
the one the call started from. -/
theorem Write_error_writer_eq (env : FS) (w : Writer) (f : File) (e : String)
    (h : (Writer.Write env w f).1 = .error e) :
    (Writer.Write env w f).2.1 = w := by
  rcases Write_spec env w f with ⟨_, hw⟩ | ⟨hok, _, _⟩
  · exact hw
  · rw [h] at hok; cases hok

/-- On a successful Write the returned path is the Dir-joined output
path and it is pushed onto the registry. -/
theorem Write_ok_path (env : FS) (w : Writer) (f : File) (p : String)
    (h : (Writer.Write env w f).1 = .ok p) :
    p = filepathJoin w.Dir (f.OutputPath w.Files) ∧
    (Writer.Write env w f).2.1.Dir = w.Dir ∧
    (Writer.Write env w f).2.1.Files = p :: w.Files := by
  rcases Write_spec env w f with ⟨hf, _⟩ | ⟨hok, hd, hfl⟩
  · rw [h] at hf; simp [isFailure] at hf
  · rw [h] at hok
    injection hok with hpe
    refine ⟨hpe, hd, ?_⟩
    rw [hfl, hpe]

/-! ## Trace bookkeeping for the driver -/

theorem writtenPaths_nil : writtenPaths [] = [] := rfl

theorem writtenPaths_cons_gen (g : String) (t : List DEffect) :
    writtenPaths (.invokeGenerator g :: t) = writtenPaths t := rfl

theorem writtenPaths_cons_run (t : List DEffect) :
    writtenPaths (.runDSL :: t) = writtenPaths t := rfl

theorem writtenPaths_cons_write (p : String) (t : List DEffect) :
    writtenPaths (.writeFile p :: t) = p :: writtenPaths t := rfl

theorem writtenPaths_append (t1 t2 : List DEffect) :
    writtenPaths (t1 ++ t2) = writtenPaths t1 ++ writtenPaths t2 := by
  unfold writtenPaths
  exact List.filterMap_append t1 t2 _

/-- The generator loop never writes a file: its trace holds only
generator invocations. -/
theorem runGenerators_no_writes (env : DriverEnv) (roots : List String) :
    ∀ gens, writtenPaths (runGenerators env roots gens).2 = []
  | [] => rfl
  | g :: rest => by
    unfold runGenerators
    cases hg : env.generate g roots with
    | error e => rfl
    | ok fs =>
      have ih := runGenerators_no_writes env roots rest
      rcases hr : runGenerators env roots rest with ⟨res, tr⟩
      rw [hr] at ih
      cases res <;> simpa [writtenPaths_cons_gen] using ih

/-- When the write loop succeeds, the paths it returns are exactly the
written paths of its trace, in write order. -/
theorem writeFiles_ok_paths (env : FS) :
    ∀ (files : List File) (w : Writer) (ps : List String) (w2 : Writer)
      (tr : List DEffect),
      writeFiles env w files = (.ok ps, w2, tr) → writtenPaths tr = ps
  | [], w, ps, w2, tr, h => by
    simp only [writeFiles, Prod.mk.injEq, Except.ok.injEq] at h
    rw [← h.2.2, ← h.1]
    rfl
  | f :: rest, w, ps, w2, tr, h => by
    unfold writeFiles at h
    rcases hw : Writer.Write env w f with ⟨res, w1, wtr⟩
    rw [hw] at h
    cases res with
    | error e => simp at h
    | ok p =>
      dsimp only at h
      rcases hr : writeFiles env w1 rest with ⟨res2, w2n, tr2⟩
      rw [hr] at h
      cases res2 with
      | error e => simp at h
      | ok ps2 =>
        simp only [Prod.mk.injEq, Except.ok.injEq] at h
        obtain ⟨hps, _, htr⟩ := h
        rw [← htr, ← hps, writtenPaths_cons_write,
          writeFiles_ok_paths env rest w1 ps2 w2n tr2 hr]

/-! ## The closed generator-name mapping -/

theorem mainGens_valid : ∀ cmds : List String,
    (∀ c ∈ cmds, c = "server" ∨ c = "client" ∨ c = "openapi") →
    mainGens cmds = some (cmds.map (fun c => (commandGen c).getD ""))
  | [], _ => rfl
  | c :: rest, h => by
    have hc := h c (List.mem_cons_self c rest)
    have hr := mainGens_valid rest (fun x hx => h x (List.mem_cons_of_mem c hx))
    rcases hc with h1 | h1 | h1 <;> subst h1 <;>
      simp [mainGens, commandGen, hr]

theorem mainGens_invalid : ∀ (cmds : List String) (c : String),
    c ∈ cmds → commandGen c = none → mainGens cmds = none
  | [], c, h, _ => absurd h (List.not_mem_nil c)
  | d :: rest, c, h, hc => by
    unfold mainGens
    cases hd : commandGen d with
    | none => rfl
    | some g =>
      rcases List.mem_cons.mp h with he | he
      · rw [← he] at hd; rw [hd] at hc; cases hc
      · rw [mainGens_invalid rest c he hc]; rfl

/-! ## Claims -/

/-- C1: the spec claims normalization leaves exactly the used import
declarations. Evaluated on a file declaring one import, "fmt", that the
body never uses: the deletion loop computes the cleaned import list, but
`formatCode` writes back the original content reformatted, so the unused
declaration is retained (1 import remains where the claim demands 0). -/
theorem C1_unusedImportRetained :
    usesImport unusedImportFile "fmt" = false ∧
    (deleteUnusedImports unusedImportFile).imports = [] ∧
    (formatCode unusedImportFile).imports = [{ name := "", path := "fmt" }] :=
  ⟨rfl, rfl, rfl⟩

/-- C2: the spec claims the paths returned by successful Write calls in
one session are pairwise distinct. Evaluated on two driver Files in one
session rooted at "gen": both writes succeed and both return the same
final path "gen/main.go", because the registry reserves the Dir-joined
key while OutputPath is checked against relative values, so the second
File never sees its natural path reserved (last conjunct: the documented
OutputPath contract is even honored). -/
theorem C2_duplicateFinalPath :
    (Writer.Write fsOk (NewWriter "gen") driverFile).1 = .ok "gen/main.go" ∧
    (Writer.Write fsOk
        (Writer.Write fsOk (NewWriter "gen") driverFile).2.1 driverFile).1 =
      .ok "gen/main.go" ∧
    mainFileOutputPath
        (Writer.Write fsOk (NewWriter "gen") driverFile).2.1.Files ∉
      (Writer.Write fsOk (NewWriter "gen") driverFile).2.1.Files :=
  ⟨rfl, rfl, by decide⟩

/-- C4 counterexample: the claim says the namespace context is resolved
at most once per writer session. In a session of two successful writes
the trace shows two `build.ImportDir` resolutions, not at most one. -/
theorem C4_namespaceResolvedPerFile :
    ¬ (((Writer.Write fsOk (NewWriter "gen") driverFile).2.2 ++
        (Writer.Write fsOk
          (Writer.Write fsOk (NewWriter "gen") driverFile).2.1
          driverFile).2.2).count WEffect.importDir ≤ 1) := by
  decide

/-- C4 amended: the namespace context is resolved anew on every Write
call: each call that gets past directory creation and file open performs
exactly one `build.ImportDir` resolution, and calls that fail earlier
perform none; nothing is cached across the session. -/
theorem C4_resolveOncePerWrite (env : FS) (w : Writer) (f : File) :
    (Writer.Write env w f).2.2.count WEffect.importDir =
      match env.mkdirAll, env.openFile with
      | .ok _, .ok _ => 1
      | _, _ => 0 := by
  cases hw0 : env.mkdirAll with
  | error e =>
    cases hw1 : env.openFile with
    | error e1 => simp only [Writer.Write, hw0, hw1]; rfl
    | ok u1 => simp only [Writer.Write, hw0, hw1]; rfl
  | ok u0 =>
    cases hw1 : env.openFile with
    | error e1 => simp only [Writer.Write, hw0, hw1]; rfl
    | ok u1 =>
      cases hw2 : env.importDir w.Dir with
      | error e2 => simp only [Writer.Write, hw0, hw1, hw2]; rfl
      | ok g =>
        cases hw3 : renderSections (f.Sections g) with
        | error e3 => simp only [Writer.Write, hw0, hw1, hw2, hw3]; rfl
        | ok t =>
          by_cases hg : hasGoExt (filepathJoin w.Dir (f.OutputPath w.Files)) = true
          · cases hw4 : env.format with
            | error e4 =>
              simp only [Writer.Write, hw0, hw1, hw2, hw3, hw4, if_pos hg]; rfl
            | ok u2 =>
              simp only [Writer.Write, hw0, hw1, hw2, hw3, hw4, if_pos hg]; rfl
          · simp only [Writer.Write, hw0, hw1, hw2, hw3, if_neg hg]; rfl

/-- C5: running the driver with a version flag different from the
embedded version fails (non-zero exit) with an empty effect trace: the
description is not evaluated, no generator is invoked, no file is
written. -/
theorem C5_versionGate (gens : List String) (out version : String)
    (env : DriverEnv) (h : version ≠ env.embeddedVersion) :
    isFailure (mainT gens out version env).1 = true ∧
    (mainT gens out version env).2 = [] := by
  by_cases h1 : out = ""
  · simp [mainT, h1, isFailure]
  · by_cases h2 : version = ""
    · simp [mainT, h1, h2, isFailure]
    · simp [mainT, h1, h2, h, isFailure]

theorem C5_versionGate_witness :
    isFailure (mainT ["Server"] "out" "1.0.0" driverEnvOk).1 = true ∧
    (mainT ["Server"] "out" "1.0.0" driverEnvOk).2 = [] :=
  C5_versionGate ["Server"] "out" "1.0.0" driverEnvOk (by decide)

/-- C6: a failed Write leaves the session registry unchanged for its
path (indeed the whole writer unchanged); a successful Write returns the
computed Dir-joined path and adds exactly it to the registry. -/
theorem C6_registryIntegrity (env : FS) (w : Writer) (f : File) :
    (∀ e, (Writer.Write env w f).1 = .error e →
      (Writer.Write env w f).2.1 = w) ∧
    (∀ p, (Writer.Write env w f).1 = .ok p →
      (Writer.Write env w f).2.1.Files = p :: w.Files ∧
      p = filepathJoin w.Dir (f.OutputPath w.Files)) := by
  constructor
  · intro e he
    exact Write_error_writer_eq env w f e he
  · intro p hp
    obtain ⟨h1, _, h3⟩ := Write_ok_path env w f p hp
    exact ⟨h3, h1⟩

theorem C6_registryIntegrity_witness :
    (Writer.Write fsOpenFails (NewWriter "gen") driverFile).2.1 =
      NewWriter "gen" ∧
    (Writer.Write fsOk (NewWriter "gen") driverFile).2.1.Files =
      "gen/main.go" :: (NewWriter "gen").Files ∧
    "gen/main.go" = filepathJoin (NewWriter "gen").Dir
      (driverFile.OutputPath (NewWriter "gen").Files) :=
  ⟨(C6_registryIntegrity fsOpenFails (NewWriter "gen") driverFile).1
      "open main.go: permission denied" rfl,
    (C6_registryIntegrity fsOk (NewWriter "gen") driverFile).2
      "gen/main.go" rfl⟩

/-- C3 counterexample: with debug off, a run that fails at the driver
write stage, after the workspace was created, still removes the
workspace, so the claim that the workspace is retained on every
post-creation failure is false. -/
theorem C3_workspaceRemovedOnFailure :
    ¬ ((isFailure (generate genEnvWriteFails ["server"]
          "goa.design/cellar/design" "." false).1 = true ∧
        GenStep.createWorkspace ∈ (generate genEnvWriteFails ["server"]
          "goa.design/cellar/design" "." false).2) →
      GenStep.removeWorkspace ∉ (generate genEnvWriteFails ["server"]
          "goa.design/cellar/design" "." false).2) := by
  decide

/-- C3 amended: once the staging workspace is created, it is removed on
both success and failure exactly when debug mode was not requested;
under debug it is always retained. -/
theorem C3_workspaceRemovalMatchesDebug (env : GenEnv) (cmds : List String)
    (path output : String) (debug : Bool)
    (h : GenStep.createWorkspace ∈ (generate env cmds path output debug).2) :
    (GenStep.removeWorkspace ∈ (generate env cmds path output debug).2 ↔
      debug = false) := by
  cases hi : env.importPkg with
  | error e => simp [generate, hi] at h
  | ok u =>
    cases hl : env.lookGo with
    | error e => simp [generate, hi, hl] at h
    | ok gobin =>
      cases ht : env.tempDir with
      | error e => simp [generate, hi, hl, ht] at h
      | ok tmpDir =>
        cases hm : Main cmds path with
        | none => cases debug <;> simp [generate, hi, hl, ht, hm]
        | some driver =>
          rcases hw : Writer.Write env.fs (NewWriter tmpDir) driver
            with ⟨res, w1, tr⟩
          cases res with
          | error e =>
            cases debug <;> simp [generate, hi, hl, ht, hm, hw]
          | ok p =>
            cases hc : env.compileOut with
            | error e =>
              cases debug <;> simp [generate, hi, hl, ht, hm, hw, hc]
            | ok co =>
              cases hr : env.runOut with
              | error e =>
                cases debug <;> simp [generate, hi, hl, ht, hm, hw, hc, hr]
              | ok ro =>
                cases debug <;> simp [generate, hi, hl, ht, hm, hw, hc, hr]

theorem C3_workspaceRemovalMatchesDebug_witness :
    GenStep.removeWorkspace ∈ (generate genEnvWriteFails ["server"]
      "goa.design/cellar/design" "." false).2 ↔ false = false :=
  C3_workspaceRemovalMatchesDebug genEnvWriteFails ["server"]
    "goa.design/cellar/design" "." false (by decide)

/-- C8: when the design import path does not resolve, generate returns
exactly that error with nothing but the resolution attempt in its trace:
no workspace is created, no driver is written, no compile and no driver
execution is started. -/
theorem C8_unresolvableIsImmediate (env : GenEnv) (cmds : List String)
    (path output : String) (debug : Bool) (e : String)
    (h : env.importPkg = .error e) :
    (generate env cmds path output debug).1 = .error e ∧
    (generate env cmds path output debug).2 = [GenStep.resolveDescription] ∧
    GenStep.createWorkspace ∉ (generate env cmds path output debug).2 ∧
    GenStep.writeDriver ∉ (generate env cmds path output debug).2 ∧
    GenStep.compile ∉ (generate env cmds path output debug).2 ∧
    GenStep.execute ∉ (generate env cmds path output debug).2 := by
  refine ⟨?_, ?_, ?_, ?_, ?_, ?_⟩ <;> simp [generate, h]

theorem C8_unresolvableIsImmediate_witness :
    (generate genEnvImportFails ["server"] "goa.design/cellar/design" "."
        false).1 = .error "cannot find package goa.design/cellar/design" ∧
    (generate genEnvImportFails ["server"] "goa.design/cellar/design" "."
        false).2 = [GenStep.resolveDescription] ∧
    GenStep.createWorkspace ∉ (generate genEnvImportFails ["server"]
      "goa.design/cellar/design" "." false).2 ∧
    GenStep.writeDriver ∉ (generate genEnvImportFails ["server"]
      "goa.design/cellar/design" "." false).2 ∧
    GenStep.compile ∉ (generate genEnvImportFails ["server"]
      "goa.design/cellar/design" "." false).2 ∧
    GenStep.execute ∉ (generate genEnvImportFails ["server"]
      "goa.design/cellar/design" "." false).2 :=
  C8_unresolvableIsImmediate genEnvImportFails ["server"]
    "goa.design/cellar/design" "." false
    "cannot find package goa.design/cellar/design" rfl

/-- C9: the command-name mapping is closed over exactly server, client
and openapi: the three ground mappings are Server, Client and OpenAPI;
an all-valid command list maps elementwise, in order, through
commandGen; and a list holding any other name reaches the panic branch
(none), which is therefore unreachable under the validity
precondition. -/
theorem C9_closedGeneratorMapping (cmds : List String) :
    commandGen "server" = some "Server" ∧
    commandGen "client" = some "Client" ∧
    commandGen "openapi" = some "OpenAPI" ∧
    ((∀ c ∈ cmds, c = "server" ∨ c = "client" ∨ c = "openapi") →
      mainGens cmds = some (cmds.map (fun c => (commandGen c).getD ""))) ∧
    (∀ c ∈ cmds, commandGen c = none → mainGens cmds = none) :=
  ⟨rfl, rfl, rfl, fun h => mainGens_valid cmds h,
    fun c hc h => mainGens_invalid cmds c hc h⟩

theorem C9_closedGeneratorMapping_witness :
    mainGens ["server", "openapi"] =
      some (["server", "openapi"].map (fun c => (commandGen c).getD "")) ∧
    mainGens ["bogus"] = none :=
  ⟨(C9_closedGeneratorMapping ["server", "openapi"]).2.2.2.1 (by decide),
    (C9_closedGeneratorMapping ["bogus"]).2.2.2.2 "bogus" (by decide) rfl⟩

/-- C10: registry keys are the Dir-joined full paths while OutputPath
returns paths relative to the session directory: in any session whose
registry holds only Dir-joined keys (base directory neither empty nor
"."), the relative natural path a File computes is never among the
reserved keys handed to OutputPath, a successful Write registers the
Dir-joined form of it, and the joined-key shape of the registry is
preserved. -/
theorem C10_registryHoldsJoinedPaths (env : FS) (w : Writer) (f : File)
    (hd1 : w.Dir ≠ "") (hd2 : w.Dir ≠ ".")
    (hrel : f.OutputPath w.Files ≠ "")
    (hnat : ∀ r, f.OutputPath w.Files ≠ w.Dir ++ "/" ++ r)
    (hinv : ∀ k ∈ w.Files, ∃ r, k = w.Dir ++ "/" ++ r) :
    f.OutputPath w.Files ∉ w.Files ∧
    (∀ p, (Writer.Write env w f).1 = .ok p →
      p = w.Dir ++ "/" ++ f.OutputPath w.Files) ∧
    (∀ k ∈ (Writer.Write env w f).2.1.Files,
      ∃ r, k = w.Dir ++ "/" ++ r) := by
  have hjoin : filepathJoin w.Dir (f.OutputPath w.Files) =
      w.Dir ++ "/" ++ f.OutputPath w.Files := by
    unfold filepathJoin
    rw [if_neg hd1, if_neg hrel, if_neg hd2]
  refine ⟨?_, ?_, ?_⟩
  · intro hmem
    obtain ⟨r, hr⟩ := hinv _ hmem
    exact hnat r hr
  · intro p hp
    obtain ⟨h1, _, _⟩ := Write_ok_path env w f p hp
    rw [h1, hjoin]
  · intro k hk
    rcases Write_spec env w f with ⟨_, hw⟩ | ⟨hok, _, hfl⟩
    · rw [hw] at hk
      exact hinv k hk
    · rw [hfl] at hk
      rcases List.mem_cons.mp hk with he | he
      · exact ⟨f.OutputPath w.Files, by rw [he, hjoin]⟩
      · exact hinv k he

theorem C10_registryHoldsJoinedPaths_witness :
    driverFile.OutputPath (NewWriter "workspace").Files ∉
      (NewWriter "workspace").Files ∧
    (∀ p, (Writer.Write fsOk (NewWriter "workspace") driverFile).1 = .ok p →
      p = (NewWriter "workspace").Dir ++ "/" ++
        driverFile.OutputPath (NewWriter "workspace").Files) ∧
    (∀ k ∈ (Writer.Write fsOk (NewWriter "workspace") driverFile).2.1.Files,
      ∃ r, k = (NewWriter "workspace").Dir ++ "/" ++ r) :=
  C10_registryHoldsJoinedPaths fsOk (NewWriter "workspace") driverFile
    (by decide) (by decide) (by decide)
    (fun r hr => by
      have hr2 : ("main.go" : String) = "workspace" ++ "/" ++ r := hr
      have hlen := congrArg String.length hr2
      rw [String.length_append, String.length_append] at hlen
      have e1 : ("main.go" : String).length = 7 := rfl
      have e2 : ("workspace" : String).length = 9 := rfl
      have e3 : ("/" : String).length = 1 := rfl
      rw [e1, e2, e3] at hlen
      omega)
    (fun k hk => absurd hk (List.not_mem_nil k))

/-- C7: on a successful driver run the printed text is the newline-join
of the lexicographically sorted list of written paths; that list is
sorted, and it depends only on which paths were written, not on the
order the generators produced or the writer wrote them (any permutation
of the written paths sorts to the same list). -/
theorem C7_sortedOutput (gens : List String) (out version : String)
    (env : DriverEnv) (s : String)
    (h : (mainT gens out version env).1 = .ok s) :
    s = String.intercalate "\n"
        (sortStrings (writtenPaths (mainT gens out version env).2)) ∧
    List.Sorted strLeRel
      (sortStrings (writtenPaths (mainT gens out version env).2)) ∧
    ∀ l, l.Perm (writtenPaths (mainT gens out version env).2) →
      sortStrings l =
        sortStrings (writtenPaths (mainT gens out version env).2) := by
  refine ⟨?_, sortStrings_sorted _, fun l hl => sortStrings_congr hl⟩
  unfold mainT at h ⊢
  by_cases h1 : out = ""
  · rw [if_pos h1] at h; simp at h
  · rw [if_neg h1] at h ⊢
    by_cases h2 : version = ""
    · rw [if_pos h2] at h; simp at h
    · rw [if_neg h2] at h ⊢
      by_cases h3 : version ≠ env.embeddedVersion
      · rw [if_pos h3] at h; simp at h
      · rw [if_neg h3] at h ⊢
        cases hce : env.ctxErrors with
        | some e => rw [hce] at h; simp at h
        | none =>
          rw [hce] at h
          dsimp only at h ⊢
          cases hd : env.runDSL with
          | error e => rw [hd] at h; simp at h
          | ok u =>
            rw [hd] at h
            dsimp only at h ⊢
            cases hro : env.roots with
            | error e => rw [hro] at h; simp at h
            | ok roots =>
              rw [hro] at h
              dsimp only at h ⊢
              rcases hrg : runGenerators env roots gens with ⟨resg, trg⟩
              rw [hrg] at h
              cases resg with
              | error e => simp at h
              | ok files =>
                dsimp only at h ⊢
                rcases hwf : writeFiles env.fs (NewWriter out) files
                  with ⟨resw, w2, wtr⟩
                rw [hwf] at h
                cases resw with
                | error e => simp at h
                | ok outputs =>
                  dsimp only at h ⊢
                  injection h with hs
                  rw [← hs]
                  have hg0 : writtenPaths trg = [] := by
                    have hnw := runGenerators_no_writes env roots gens
                    rw [hrg] at hnw
                    exact hnw
                  have hw0 : writtenPaths wtr = outputs :=
                    writeFiles_ok_paths env.fs files (NewWriter out)
                      outputs w2 wtr hwf
                  rw [writtenPaths_cons_run, writtenPaths_append, hg0, hw0,
                    List.nil_append]

theorem C7_sortedOutput_witness :
    "out/a.go\nout/b.go" = String.intercalate "\n"
        (sortStrings (writtenPaths
          (mainT ["Server"] "out" "2.0.0" driverEnvOk).2)) ∧
    List.Sorted strLeRel (sortStrings (writtenPaths
      (mainT ["Server"] "out" "2.0.0" driverEnvOk).2)) ∧
    ∀ l, l.Perm (writtenPaths
        (mainT ["Server"] "out" "2.0.0" driverEnvOk).2) →
      sortStrings l = sortStrings (writtenPaths
        (mainT ["Server"] "out" "2.0.0" driverEnvOk).2) :=
  C7_sortedOutput ["Server"] "out" "2.0.0" driverEnvOk
    "out/a.go\nout/b.go" rfl

end Goa
